import Mathlib

/-!
Verification of the yamis release-packaging and coverage scripts.

The three Python scripts (`ci_build.py`, `zip_releases.py`, `generate_cov.py`)
are shallowly embedded below.  File-system state is a list of path/node
bindings; every script operation becomes an explicit state-passing function
returning the resulting file system together with an optional raised error.
External process invocations (cargo, kcov, rm) are modelled by an environment
recording their exit statuses and captured output; the coverage script is a
function from that environment to the trace of commands it issues.
-/

set_option autoImplicit false

/-! ## Byte sequences and SHA-256

`hashlib.sha256` is embedded as the real SHA-256 algorithm over byte lists
(`Nat` values; each byte is reduced mod 256 on entry).  The incremental
`update` interface of `hashlib` is modelled by buffering the fed chunks and
hashing the concatenation at `hexdigest` time, which is the specification of
an incremental Merkle–Damgard hash.
-/

/-- Byte content of a regular file: a list of byte values. -/
abbrev Bytes := List Nat

namespace SHA256

/-- Truncation to a 32-bit word. -/
def w32 (n : Nat) : Nat := n % 4294967296

/-- Right rotation of a 32-bit word by `n` positions. -/
def rotr (n x : Nat) : Nat := w32 ((x >>> n) ||| (x <<< (32 - n)))

/-- The SHA-256 `Ch` function. -/
def ch (x y z : Nat) : Nat := (x &&& y) ^^^ ((x ^^^ 4294967295) &&& z)

/-- The SHA-256 `Maj` function. -/
def maj (x y z : Nat) : Nat := (x &&& y) ^^^ (x &&& z) ^^^ (y &&& z)

/-- The big Sigma-0 round function. -/
def bigS0 (x : Nat) : Nat := rotr 2 x ^^^ rotr 13 x ^^^ rotr 22 x

/-- The big Sigma-1 round function. -/
def bigS1 (x : Nat) : Nat := rotr 6 x ^^^ rotr 11 x ^^^ rotr 25 x

/-- The small sigma-0 schedule function. -/
def smallS0 (x : Nat) : Nat := rotr 7 x ^^^ rotr 18 x ^^^ (x >>> 3)

/-- The small sigma-1 schedule function. -/
def smallS1 (x : Nat) : Nat := rotr 17 x ^^^ rotr 19 x ^^^ (x >>> 10)

/-- The 64 SHA-256 round constants (FIPS 180-4, in decimal). -/
def K : List Nat :=
  [1116352408, 1899447441, 3049323471, 3921009573, 961987163, 1508970993,
   2453635748, 2870763221, 3624381080, 310598401, 607225278, 1426881987,
   1925078388, 2162078206, 2614888103, 3248222580, 3835390401, 4022224774,
   264347078, 604807628, 770255983, 1249150122, 1555081692, 1996064986,
   2554220882, 2821834349, 2952996808, 3210313671, 3336571891, 3584528711,
   113926993, 338241895, 666307205, 773529912, 1294757372, 1396182291,
   1695183700, 1986661051, 2177026350, 2456956037, 2730485921, 2820302411,
   3259730800, 3345764771, 3516065817, 3600352804, 4094571909, 275423344,
   430227734, 506948616, 659060556, 883997877, 958139571, 1322822218,
   1537002063, 1747873779, 1955562222, 2024104815, 2227730452, 2361852424,
   2428436474, 2756734187, 3204031479, 3329325298]

/-- The SHA-256 initial hash value (FIPS 180-4, in decimal). -/
def H0 : List Nat :=
  [1779033703, 3144134277, 1013904242, 2773480762, 1359893119, 2600822924,
   528734635, 1541459225]

/-- SHA-256 padding: append `0x80`, zero bytes up to 56 mod 64, then the
bit length as an 8-byte big-endian integer. -/
def padMessage (msg : Bytes) : Bytes :=
  let L := msg.length
  let k := (119 - L % 64) % 64
  let bitLen := (8 * L) % 18446744073709551616
  msg ++ 0x80 :: List.replicate k 0 ++
    (List.range 8).map (fun i => (bitLen >>> (56 - 8 * i)) % 256)

/-- Assemble big-endian 32-bit words from groups of four bytes. -/
def bytesToWords : Bytes → List Nat
  | b0 :: b1 :: b2 :: b3 :: rest =>
      ((b0 <<< 24) ||| (b1 <<< 16) ||| (b2 <<< 8) ||| b3) :: bytesToWords rest
  | _ => []

/-- Extend a 16-word block to the 64-word message schedule; `fuel` counts the
remaining words to generate. -/
def extendSchedule : Nat → Array Nat → Array Nat
  | 0, w => w
  | fuel + 1, w =>
      let i := w.size
      let nw := w32 (smallS1 (w.getD (i - 2) 0) + w.getD (i - 7) 0 +
                     smallS0 (w.getD (i - 15) 0) + w.getD (i - 16) 0)
      extendSchedule fuel (w.push nw)

/-- One SHA-256 round: update the eight working variables with a round
constant and a schedule word. -/
def roundStep (st : List Nat) (kw : Nat × Nat) : List Nat :=
  match st with
  | [a, b, c, d, e, f, g, h] =>
      let t1 := w32 (h + bigS1 e + ch e f g + kw.1 + kw.2)
      let t2 := w32 (bigS0 a + maj a b c)
      [w32 (t1 + t2), a, b, c, w32 (d + t1), e, f, g]
  | other => other

/-- Compress one 16-word block into the running hash value. -/
def compress (h : List Nat) (block : List Nat) : List Nat :=
  let w := extendSchedule 48 (Array.mk block)
  let final := (K.zip w.toList).foldl roundStep h
  (h.zip final).map (fun p => w32 (p.1 + p.2))

/-- Fold the compression function over successive 16-word blocks. -/
def processBlocks (h : List Nat) : List Nat → List Nat
  | w0 :: w1 :: w2 :: w3 :: w4 :: w5 :: w6 :: w7 ::
    w8 :: w9 :: w10 :: w11 :: w12 :: w13 :: w14 :: w15 :: rest =>
      processBlocks
        (compress h [w0, w1, w2, w3, w4, w5, w6, w7, w8, w9, w10, w11, w12, w13, w14, w15]) rest
  | _ => h

/-- The SHA-256 digest of a byte sequence, as the eight final hash words. -/
def sha256words (msg : Bytes) : List Nat :=
  processBlocks H0 (bytesToWords (padMessage (msg.map (· % 256))))

/-- The lower-case hexadecimal character for a value below 16. -/
def hexChar (n : Nat) : Char :=
  if n < 10 then Char.ofNat (48 + n) else Char.ofNat (87 + n)

/-- Format a 32-bit word as 8 lower-case hexadecimal characters. -/
def wordHex (w : Nat) : String :=
  String.mk ((List.range 8).map (fun i => hexChar ((w >>> (28 - 4 * i)) % 16)))

/-- The lower-case hexadecimal SHA-256 digest of a byte sequence. -/
def sha256hex (msg : Bytes) : String :=
  String.join ((sha256words msg).map wordHex)

end SHA256

/-! ## File-system model

A file system is a list of path/node bindings; the most recent binding for a
path shadows older ones, so writing is prepending.  Directories are not
tracked (`os.mkdir` / `os.makedirs` calls in the scripts only create
directories and are modelled as no-ops on the binding list).  Archive files
record their entry list (arcname and content, in insertion order) and whether
the archive was completed; a file created by opening a `ZipFile`/`TarFile`
whose `with` block raised keeps `complete := false`.  `os.path.join` is
embedded for the ordinary case of relative component paths.
-/

/-- A node in the modelled file system. -/
inductive FNode where
  | data (content : Bytes)
  | text (content : String)
  | zipA (entries : List (String × Bytes)) (complete : Bool)
  | tarA (entries : List (String × Bytes)) (complete : Bool)
deriving DecidableEq

/-- The bytes obtained when a node is opened in binary mode.  Text files are
UTF-8 encoded; the on-disk serialization of zip and tar archives is modelled
abstractly by a tagged encoding of the entry list (the scripts never parse
archive bytes, they only feed them to the digest computer). -/
def FNode.bytes : FNode → Bytes
  | .data c => c
  | .text s => s.toUTF8.toList.map (·.toNat)
  | .zipA entries _ =>
      80 :: entries.foldr
        (fun e acc => (e.1.toUTF8.toList.map (·.toNat)) ++ 0 :: e.2.length :: e.2 ++ acc) []
  | .tarA entries _ =>
      117 :: entries.foldr
        (fun e acc => (e.1.toUTF8.toList.map (·.toNat)) ++ 0 :: e.2.length :: e.2 ++ acc) []

/-- Look up the newest binding for a path. -/
def lookupFile : List (String × FNode) → String → Option FNode
  | [], _ => none
  | (q, n) :: rest, p => if q = p then some n else lookupFile rest p

/-- The modelled file system. -/
structure FS where
  files : List (String × FNode)
deriving DecidableEq

/-- The node currently stored at a path, if any. -/
def FS.find (fs : FS) (p : String) : Option FNode := lookupFile fs.files p

/-- Create or overwrite the file at a path. -/
def FS.write (fs : FS) (p : String) (n : FNode) : FS := ⟨(p, n) :: fs.files⟩

/-- Errors raised by the scripts: a missing file
(`FileNotFoundError`, the `IOError`/`MissingArtifact` case) or a non-zero
exit of a checked external command (`subprocess.CalledProcessError`). -/
inductive Err where
  | missingFile (path : String)
  | calledProcessError (cmd : String)
deriving DecidableEq

/-- Result of running a script fragment: the file system afterwards and the
raised error, if any (side effects performed before the raise persist). -/
structure PRes where
  fs : FS
  err : Option Err
deriving DecidableEq

/-! ### String helpers

The Python string operations used by the scripts (`split` on a one-character
separator, `strip`, `startswith`, substring containment) are embedded by
structurally recursive functions on the character list of a string. -/

/-- Split a character list on a separator character, keeping empty pieces,
as Python `str.split(sep)` does for a one-character `sep`. -/
def splitOnChar (sep : Char) : List Char → List (List Char)
  | [] => [[]]
  | c :: rest =>
      let r := splitOnChar sep rest
      if c = sep then [] :: r
      else
        match r with
        | [] => [[c]]
        | h :: t => (c :: h) :: t

/-- Split a string on a separator character. -/
def strSplitOnChar (sep : Char) (s : String) : List String :=
  (splitOnChar sep s.data).map String.mk

/-- Whether `pat` occurs as a contiguous sublist. -/
def containsSub (pat : List Char) : List Char → Bool
  | [] => pat.isEmpty
  | c :: rest => pat.isPrefixOf (c :: rest) || containsSub pat rest

/-- Embedding of the Python substring test `pat in s`. -/
def strContains (s pat : String) : Bool := containsSub pat.data s.data

/-- Embedding of Python `str.strip()`: drop whitespace from both ends. -/
def strTrim (s : String) : String :=
  String.mk (((s.data.dropWhile Char.isWhitespace).reverse.dropWhile Char.isWhitespace).reverse)

/-- Embedding of Python `str.startswith(pre)`. -/
def strStartsWith (s pre : String) : Bool := pre.data.isPrefixOf s.data

/-- Embedding of `os.path.join` for relative component paths. -/
def os_path_join (a b : String) : String := a ++ "/" ++ b

/-- Embedding of `os.path.basename`: the part after the last slash. -/
def basename (p : String) : String := (strSplitOnChar '/' p).getLastD p


/-! ## ci_build.py

Embedding of the single-target release builder.  `get_sha256_sum` reads the
file in 4096-byte chunks and folds them into the hash accumulator;
`create_hash_file` mimics `sha256sum` output; `zip_files` / `tar_files`
archive the binary plus the extra files and then create the hash file;
`ci_build_main` embeds `__main__` (the external `cargo build` invocation is
represented by its exit status). -/

namespace CiBuild

/-- The fixed auxiliary file list of `ci_build.py`. -/
def EXTRA_FILES_TO_ZIP : List String := ["README.md", "LICENSE", "CHANGELOG.md"]

/-- The package name constant of `ci_build.py`. -/
def PKG_NAME : String := "yamis"

/-- Successive 4096-byte reads of a byte list, as performed by
`iter(lambda: f.read(4096), b"")`; `fuel` bounds the number of reads and is
instantiated with the file length (each non-final read consumes 4096 bytes,
so `length` reads always suffice). -/
def readChunks : Nat → Bytes → List Bytes
  | _, [] => []
  | 0, _ => []
  | fuel + 1, x :: xs => ((x :: xs).take 4096) :: readChunks fuel ((x :: xs).drop 4096)

/-- Embedding of `get_sha256_sum`: open the file, feed it to the hash
accumulator in 4096-byte chunks (the accumulator buffers the fed bytes), and
return the lower-case hexadecimal digest. -/
def get_sha256_sum (fs : FS) (filename : String) : Except Err String :=
  match fs.find filename with
  | none => .error (.missingFile filename)
  | some node =>
      let buffered := (readChunks node.bytes.length node.bytes).foldl (fun acc chunk => acc ++ chunk) []
      .ok (SHA256.sha256hex buffered)

/-- Embedding of `create_hash_file`: writes `<basename>.sha256` into
`final_dir` containing the digest, two spaces, and the base filename. -/
def create_hash_file (filepath final_dir : String) (fs : FS) : PRes :=
  match get_sha256_sum fs filepath with
  | .error e => ⟨fs, some e⟩
  | .ok sha256_hash =>
      let filename := basename filepath
      let hash_filepath := os_path_join final_dir (filename ++ ".sha256")
      ⟨fs.write hash_filepath (.text (sha256_hash ++ "  " ++ filename)), none⟩

/-- Collect archive entries for a list of source paths (arcname = the given
path, as in `zip_file.write(file)` / `tar_file.add(file)`).  Returns the
entries added before the first missing source, and the raised error if one
was missing. -/
def collectEntries (fs : FS) : List String → List (String × Bytes) × Option Err
  | [] => ([], none)
  | f :: rest =>
      match fs.find f with
      | none => ([], some (.missingFile f))
      | some n =>
          let r := collectEntries fs rest
          ((f, n.bytes) :: r.1, r.2)

/-- Embedding of `zip_files`: opening `ZipFile(zip_path, "w")` creates the
file at once; the binary is added under its basename, then each extra file
under its own name; a missing source raises `FileNotFoundError`, leaving the
incomplete archive file behind; on success the hash file is created. -/
def zip_files (binary version target final_dir : String) (fs : FS) : PRes :=
  let zip_name := PKG_NAME ++ "-" ++ version ++ "-" ++ target ++ ".zip"
  let zip_path := os_path_join final_dir zip_name
  let fs1 := fs.write zip_path (.zipA [] false)
  match fs1.find binary with
  | none => ⟨fs1, some (.missingFile binary)⟩
  | some bnode =>
      let collected := collectEntries fs1 EXTRA_FILES_TO_ZIP
      let entries := (basename binary, bnode.bytes) :: collected.1
      match collected.2 with
      | some e => ⟨fs1.write zip_path (.zipA entries false), some e⟩
      | none => create_hash_file zip_path final_dir (fs1.write zip_path (.zipA entries true))

/-- Embedding of `tar_files`, identical to `zip_files` except for the
`.tar.gz` name and format. -/
def tar_files (binary version target final_dir : String) (fs : FS) : PRes :=
  let tar_name := PKG_NAME ++ "-" ++ version ++ "-" ++ target ++ ".tar.gz"
  let tar_path := os_path_join final_dir tar_name
  let fs1 := fs.write tar_path (.tarA [] false)
  match fs1.find binary with
  | none => ⟨fs1, some (.missingFile binary)⟩
  | some bnode =>
      let collected := collectEntries fs1 EXTRA_FILES_TO_ZIP
      let entries := (basename binary, bnode.bytes) :: collected.1
      match collected.2 with
      | some e => ⟨fs1.write tar_path (.tarA entries false), some e⟩
      | none => create_hash_file tar_path final_dir (fs1.write tar_path (.tarA entries true))

/-- The platform policy applied by `__main__`: tar+gzip when `"linux"`
occurs in the target string, zip otherwise. -/
inductive ArchiveFormat where
  | targz
  | zip
deriving DecidableEq

/-- Archive-format selection as performed by `if "linux" in target`. -/
def archiveFormatFor (target : String) : ArchiveFormat :=
  if strContains target "linux" then .targz else .zip

/-- The binary filename computed by `__main__`: the package name, with
`".exe"` appended when `"windows"` occurs in the target string. -/
def bin_name_for (target : String) : String :=
  PKG_NAME ++ (if strContains target "windows" then ".exe" else "")

/-- The conventional binary location `targetDir/<target>/release/<binName>`. -/
def binary_path_of (target_dir target : String) : String :=
  os_path_join (os_path_join (os_path_join target_dir target) "release") (bin_name_for target)

/-- The archive path used by `zip_files`:
`final_dir/<PKG_NAME>-<version>-<target>.zip`. -/
def zip_path_of (version target final_dir : String) : String :=
  os_path_join final_dir (PKG_NAME ++ "-" ++ version ++ "-" ++ target ++ ".zip")

/-- The archive path used by `tar_files`:
`final_dir/<PKG_NAME>-<version>-<target>.tar.gz`. -/
def tar_path_of (version target final_dir : String) : String :=
  os_path_join final_dir (PKG_NAME ++ "-" ++ version ++ "-" ++ target ++ ".tar.gz")

/-- The archive path `__main__` produces for a target, per platform policy. -/
def archive_path_of (version target final_dir : String) : String :=
  match archiveFormatFor target with
  | .targz => tar_path_of version target final_dir
  | .zip => zip_path_of version target final_dir

/-- The node left at the archive path when the very first entry addition
fails: an opened archive with no entries, not completed. -/
def empty_archive_node (target : String) : FNode :=
  match archiveFormatFor target with
  | .targz => .tarA [] false
  | .zip => .zipA [] false

/-- Embedding of `__main__`: run the external `cargo build` (its exit status
is `buildExit`; `check=True` raises on non-zero), create `final_dir` if
absent (directory creation is not tracked), locate the binary at the
conventional path, and dispatch on the platform policy. -/
def ci_build_main (buildExit : Nat) (target_dir target version final_dir : String)
    (fs : FS) : PRes :=
  if buildExit ≠ 0 then ⟨fs, some (.calledProcessError "cargo build")⟩
  else
    let binary_path := binary_path_of target_dir target
    match archiveFormatFor target with
    | .targz => tar_files binary_path version target final_dir fs
    | .zip => zip_files binary_path version target final_dir fs

end CiBuild


/-! ## zip_releases.py

Embedding of the multi-target packager: for each (architecture, binary) pair
of the static list, open a zip in the versioned release directory, add the
staged binary under its bare name and the extra files under their own names.
No hash file is produced by this script. -/

namespace ZipReleases

/-- Root of the staged pre-built binaries. -/
def BASE_BINARIES_PATH : String := "target_releases"

/-- Root of the release output tree. -/
def BASE_RELEASE_PATH : String := "releases"

/-- The static architecture/binary matrix of `zip_releases.py`. -/
def BINARIES : List (String × String) :=
  [("x86_64-apple-darwin", "yamis"),
   ("x86_64-pc-windows-gnu", "yamis.exe"),
   ("x86_64-unknown-linux-gnu", "yamis")]

/-- The extra files packaged by `zip_releases.py`. -/
def EXTRA : List String := ["README.md", "LICENSE", "CHANGELOG.MD"]

/-- The staged binary location
`target_releases/v<version>/<architecture>/release/<binary>`. -/
def binary_path_of (version architecture binary : String) : String :=
  os_path_join (os_path_join (os_path_join
    (os_path_join BASE_BINARIES_PATH ("v" ++ version)) architecture) "release") binary

/-- The archive location `releases/v<version>/<architecture>-v<version>.zip`. -/
def zip_path_of (version architecture : String) : String :=
  os_path_join (os_path_join BASE_RELEASE_PATH ("v" ++ version))
    (architecture ++ "-v" ++ version ++ ".zip")

/-- Embedding of `package_binary`: `os.makedirs` (untracked), open the zip
(creating the file), add the staged binary under the arcname `binary`, then
the extra files; a missing source raises `FileNotFoundError` naming it. -/
def package_binary (version architecture binary : String) (fs : FS) : PRes :=
  let binary_path := binary_path_of version architecture binary
  let zip_path := zip_path_of version architecture
  let fs1 := fs.write zip_path (.zipA [] false)
  match fs1.find binary_path with
  | none => ⟨fs1, some (.missingFile binary_path)⟩
  | some bnode =>
      let collected := CiBuild.collectEntries fs1 EXTRA
      let entries := (binary, bnode.bytes) :: collected.1
      match collected.2 with
      | some e => ⟨fs1.write zip_path (.zipA entries false), some e⟩
      | none => ⟨fs1.write zip_path (.zipA entries true), none⟩

/-- The `for` loop of `main`: process the matrix in list order; an uncaught
exception aborts the remaining iterations. -/
def runTargets (version : String) : List (String × String) → FS → PRes
  | [], fs => ⟨fs, none⟩
  | (arch, binary) :: rest, fs =>
      let r := package_binary version arch binary fs
      match r.err with
      | some e => ⟨r.fs, some e⟩
      | none => runTargets version rest r.fs

/-- Embedding of `main`: package every architecture of the static matrix. -/
def main (version : String) (fs : FS) : PRes :=
  runTargets version BINARIES fs

end ZipReleases

/-! ## generate_cov.py

The coverage script is straight-line code invoking external commands; it is
embedded as a function from an environment (exit statuses of the external
commands and the captured build output) to a result recording the ordered
trace of issued commands and how the run ended.  `subprocess.run` without
`check=True` ignores the exit status (the `rm -R` reset); with `check=True`
a non-zero status raises `CalledProcessError` and aborts the script. -/

namespace GenerateCov

/-- Output directory constant `COV_OUT_DIR`. -/
def COV_OUT_DIR : String := "target_cov/cov"

/-- Scratch directory constant `TEST_DIR`. -/
def TEST_DIR : String := "target_cov"

/-- The external commands issued by the script, in the argument shapes used
by the source. -/
inductive Cmd where
  | rmTestDir
  | cargoTestNoRun
  | kcov (outDir : String) (binary : String)
  | kcovMerge (outDir : String) (inputs : List String)
deriving DecidableEq

/-- Exit statuses and captured output of the external commands: `rmExit` for
the unchecked `rm -R`, `cargoExit`, `stdout` and `stderr` for
`cargo test --no-run`, `kcovExit i` for the i-th kcov invocation, and
`mergeExit` for the merge. -/
structure Env where
  rmExit : Nat
  cargoExit : Nat
  stdout : String
  stderr : String
  kcovExit : Nat → Nat
  mergeExit : Nat

/-- How a run of the script ends, together with the ordered trace of the
external commands issued before that point. -/
inductive Result where
  | calledProcessError (c : Cmd) (trace : List Cmd)
  | abortedNoExecutables (msg : String) (exitCode : Nat) (trace : List Cmd)
  | completed (trace : List Cmd)
deriving DecidableEq

/-- The trace of external commands a result records. -/
def Result.trace : Result → List Cmd
  | .calledProcessError _ t => t
  | .abortedNoExecutables _ _ t => t
  | .completed t => t

/-- Embedding of `.strip(")(")`:  remove leading and trailing parenthesis
characters. -/
def stripParens (s : String) : String :=
  let isP : Char → Bool := fun c => c == '(' || c == ')'
  String.mk (((s.data.dropWhile isP).reverse.dropWhile isP).reverse)

/-- Embedding of the discovery comprehension: split the captured text on
newlines, strip each line, keep the lines starting with `"Executable"`, and
for each take the last piece of a single-space split, parentheses stripped. -/
def binariesOf (captured : String) : List String :=
  ((strSplitOnChar '\n' captured).map strTrim).filterMap fun line =>
    if strStartsWith line "Executable" then
      some (stripParens ((strSplitOnChar ' ' line).getLastD ""))
    else none

/-- The kcov fan-out/fan-in loop: one checked kcov run per binary with the
indexed output directory, then one checked merge over all of them. -/
def kcovLoop (env : Env) (trace : List Cmd) (dirs : List String) :
    List (Nat × String) → Result
  | [] =>
      let mergeCmd := Cmd.kcovMerge COV_OUT_DIR dirs
      if env.mergeExit ≠ 0 then .calledProcessError mergeCmd (trace ++ [mergeCmd])
      else .completed (trace ++ [mergeCmd])
  | (i, binary) :: rest =>
      let out := COV_OUT_DIR ++ "_" ++ toString i
      let c := Cmd.kcov out binary
      if env.kcovExit i ≠ 0 then .calledProcessError c (trace ++ [c])
      else kcovLoop env (trace ++ [c]) (dirs ++ [out]) rest

/-- Embedding of the whole script: unchecked `rm -R target_cov`, checked
`cargo test --no-run` with captured output, discovery over
`stdout + stderr`, `exit(1)` when no executables were found, otherwise the
kcov fan-out and merge. -/
def generate_cov (env : Env) : Result :=
  let trace := [Cmd.rmTestDir, Cmd.cargoTestNoRun]
  if env.cargoExit ≠ 0 then .calledProcessError .cargoTestNoRun trace
  else
    let captured := env.stdout ++ env.stderr
    let binaries := binariesOf captured
    if binaries.length = 0 then
      .abortedNoExecutables "No executables found, aborting..." 1 trace
    else kcovLoop env trace [] binaries.enum

end GenerateCov



/-! ## Definitions taken from the specification's wording

These two definitions transcribe the specification's platform-policy and
discovery-parsing rules literally, to be compared with the embedded code. -/

/-- Definition following the spec's words: the OS component of a target
triple `architecture-vendor-os(-abi)` is its third dash-separated
component. -/
def osComponent (triple : String) : String :=
  ((strSplitOnChar '-' triple).drop 2).headD ""

/-- Split a character list at every whitespace character, keeping empty
pieces. -/
def splitWs : List Char → List (List Char)
  | [] => [[]]
  | c :: rest =>
      let r := splitWs rest
      if c.isWhitespace then [] :: r
      else
        match r with
        | [] => [[c]]
        | h :: t => (c :: h) :: t

/-- The whitespace-separated tokens of a string. -/
def wsTokens (s : String) : List String :=
  ((splitWs s.data).filter (· ≠ [])).map String.mk

/-- Definition following the spec's words: a line is a binary-location
marker if, after trimming whitespace, it begins with the literal
(whitespace-delimited) token `"Executable"`; the path is the line's last
whitespace-separated token with surrounding parentheses stripped. -/
def specDiscoverTestBinaries (captured : String) : List String :=
  ((strSplitOnChar '\n' captured).map strTrim).filterMap fun line =>
    match wsTokens line with
    | [] => none
    | t :: rest =>
        if t = "Executable" then
          some (GenerateCov.stripParens ((t :: rest).getLastD ""))
        else none

/-- The discovery rule actually implemented: a marker line is one whose
trimmed form has the character prefix `"Executable"`; the extracted path is
the last piece of a single-space split, parentheses stripped.  Stated by
direct recursion over the line list, to be compared with the comprehension
pipeline of `binariesOf`. -/
def discoverLines : List String → List String
  | [] => []
  | line :: rest =>
      let t := strTrim line
      if strStartsWith t "Executable" then
        GenerateCov.stripParens ((strSplitOnChar ' ' t).getLastD "") :: discoverLines rest
      else discoverLines rest

/-- The amended discovery function: `discoverLines` over the newline split. -/
def amendedDiscover (captured : String) : List String :=
  discoverLines (strSplitOnChar '\n' captured)

/-! ## General lemmas about the embedding -/

theorem FS.find_write_self (fs : FS) (p : String) (n : FNode) :
    (fs.write p n).find p = some n := by
  simp [FS.find, FS.write, lookupFile]

theorem FS.find_write_ne (fs : FS) (p q : String) (n : FNode) (h : p ≠ q) :
    (fs.write p n).find q = fs.find q := by
  simp [FS.find, FS.write, lookupFile, h]

theorem strApp_data (a b : String) : (a ++ b).data = a.data ++ b.data := rfl

theorem foldl_append_eq_join (L : List Bytes) (acc : Bytes) :
    L.foldl (fun a c => a ++ c) acc = acc ++ L.flatten := by
  induction L generalizing acc with
  | nil => simp
  | cons h t ih => simp [ih, List.append_assoc]

theorem readChunks_join (fuel : Nat) (l : Bytes) (h : l.length ≤ fuel) :
    (CiBuild.readChunks fuel l).flatten = l := by
  induction fuel generalizing l with
  | zero =>
      cases l with
      | nil => simp [CiBuild.readChunks]
      | cons x xs => simp at h
  | succ n ih =>
      cases l with
      | nil => simp [CiBuild.readChunks]
      | cons x xs =>
          have hlen : ((x :: xs).drop 4096).length ≤ n := by
            simp [List.length_drop]
            simp at h
            omega
          simp only [CiBuild.readChunks, List.flatten_cons, ih _ hlen]
          exact List.take_append_drop 4096 (x :: xs)

theorem get_sha256_sum_eq (fs : FS) (p : String) (node : FNode)
    (h : fs.find p = some node) :
    CiBuild.get_sha256_sum fs p = .ok (SHA256.sha256hex node.bytes) := by
  simp [CiBuild.get_sha256_sum, h, foldl_append_eq_join,
    readChunks_join node.bytes.length node.bytes (le_refl _)]

theorem hexChar_mem_alphabet : ∀ k < 16, SHA256.hexChar k ∈ "0123456789abcdef".data := by
  decide

theorem foldl_strapp_data (L : List String) (acc : String) :
    (L.foldl (· ++ ·) acc).data = acc.data ++ (L.map String.data).flatten := by
  induction L generalizing acc with
  | nil => simp
  | cons h t ih => simp [ih, strApp_data]

theorem join_data (L : List String) :
    (String.join L).data = (L.map String.data).flatten := by
  have : String.join L = L.foldl (· ++ ·) "" := rfl
  rw [this, foldl_strapp_data]
  rfl

theorem sha256hex_lower_hex (msg : Bytes) :
    ∀ c ∈ (SHA256.sha256hex msg).data, c ∈ "0123456789abcdef".data := by
  intro c hc
  rw [SHA256.sha256hex, join_data] at hc
  rw [List.mem_flatten] at hc
  obtain ⟨l, hl, hcl⟩ := hc
  rw [List.map_map, List.mem_map] at hl
  obtain ⟨w, _, hw⟩ := hl
  subst hw
  simp only [Function.comp, SHA256.wordHex, List.mem_map] at hcl
  obtain ⟨i, _, hi⟩ := hcl
  subst hi
  exact hexChar_mem_alphabet _ (Nat.mod_lt _ (by omega))

/-! ## Claims C5 and C6: the digest computer -/

/-- Characterization of `create_hash_file` on a readable file: the result is
exactly the input file system extended with the one record file. -/
theorem create_hash_file_eq (fs : FS) (filepath final_dir : String) (node : FNode)
    (h : fs.find filepath = some node) :
    CiBuild.create_hash_file filepath final_dir fs =
      ⟨fs.write (os_path_join final_dir (basename filepath ++ ".sha256"))
        (.text (SHA256.sha256hex node.bytes ++ "  " ++ basename filepath)), none⟩ := by
  simp [CiBuild.create_hash_file, get_sha256_sum_eq fs filepath node h]

/-- C5: for every archive path, digest and output directory,
`create_hash_file` writes exactly one file, named
`<basename(filePath)>.sha256`, into the output directory, and its content is
exactly the digest, two space characters, and the file's base filename, with
no other characters. -/
theorem c5_hash_record_single_file_exact_content (fs : FS)
    (filepath final_dir : String) (node : FNode)
    (h : fs.find filepath = some node) :
    CiBuild.create_hash_file filepath final_dir fs =
      ⟨fs.write (os_path_join final_dir (basename filepath ++ ".sha256"))
        (.text (SHA256.sha256hex node.bytes ++ "  " ++ basename filepath)), none⟩ :=
  create_hash_file_eq fs filepath final_dir node h

/-- Witness for C5 at a concrete archive file. -/
theorem c5_witness :
    (FS.mk [("out/archive.zip", FNode.data [1, 2, 3])]).find "out/archive.zip"
        = some (FNode.data [1, 2, 3]) ∧
    CiBuild.create_hash_file "out/archive.zip" "out" ⟨[("out/archive.zip", FNode.data [1, 2, 3])]⟩ =
      ⟨FS.write ⟨[("out/archive.zip", FNode.data [1, 2, 3])]⟩
        (os_path_join "out" (basename "out/archive.zip" ++ ".sha256"))
        (.text (SHA256.sha256hex (FNode.data [1, 2, 3]).bytes ++ "  "
          ++ basename "out/archive.zip")), none⟩ :=
  ⟨by decide,
   c5_hash_record_single_file_exact_content ⟨[("out/archive.zip", FNode.data [1, 2, 3])]⟩
     "out/archive.zip" "out" (FNode.data [1, 2, 3]) (by decide)⟩

/-- C6: `get_sha256_sum`, which folds fixed-size chunks of the file into the
hash accumulator, returns the hexadecimal SHA-256 digest of the file's whole
content (so the result is independent of the chunking); the digest of the
empty file is the well-known SHA-256 of zero bytes, and every digest is
lower-case hexadecimal. -/
theorem c6_digest_of_whole_content (fs : FS) (p : String) (content : Bytes)
    (h : fs.find p = some (.data content)) :
    CiBuild.get_sha256_sum fs p = .ok (SHA256.sha256hex content) ∧
    SHA256.sha256hex []
      = "e3b0c44298fc1c149afbf4c8996fb92427ae41e4649b934ca495991b7852b855" ∧
    ∀ c ∈ (SHA256.sha256hex content).data, c ∈ "0123456789abcdef".data := by
  refine ⟨?_, by decide, sha256hex_lower_hex content⟩
  simpa [FNode.bytes] using get_sha256_sum_eq fs p (.data content) h

/-- Witness for C6 at the empty file. -/
theorem c6_witness :
    (FS.mk [("f", FNode.data [])]).find "f" = some (FNode.data []) ∧
    (CiBuild.get_sha256_sum ⟨[("f", FNode.data [])]⟩ "f" = .ok (SHA256.sha256hex []) ∧
     SHA256.sha256hex []
       = "e3b0c44298fc1c149afbf4c8996fb92427ae41e4649b934ca495991b7852b855" ∧
     ∀ c ∈ (SHA256.sha256hex []).data, c ∈ "0123456789abcdef".data) :=
  ⟨by decide, c6_digest_of_whole_content ⟨[("f", FNode.data [])]⟩ "f" [] (by decide)⟩

/-! ## Claim C4: archive completeness -/

theorem os_path_join_inj_right (d a b : String) (h : os_path_join d a = os_path_join d b) :
    a = b := by
  apply String.ext
  have hd := congrArg String.data h
  simp only [os_path_join, strApp_data] at hd
  exact List.append_cancel_left hd

theorem append_zip_ne_append_sha256 (s t : String) : s ++ ".zip" ≠ t ++ ".sha256" := by
  intro h
  have hd := congrArg (fun x => x.data.getLast?) h
  simp only [strApp_data] at hd
  rw [List.getLast?_append_of_ne_nil _ (by decide),
    List.getLast?_append_of_ne_nil _ (by decide)] at hd
  exact absurd hd (by decide)

theorem append_targz_ne_append_sha256 (s t : String) : s ++ ".tar.gz" ≠ t ++ ".sha256" := by
  intro h
  have hd := congrArg (fun x => x.data.getLast?) h
  simp only [strApp_data] at hd
  rw [List.getLast?_append_of_ne_nil _ (by decide),
    List.getLast?_append_of_ne_nil _ (by decide)] at hd
  exact absurd hd (by decide)

theorem hash_path_ne_zip_path (version target final_dir : String) :
    os_path_join final_dir
        (basename (CiBuild.zip_path_of version target final_dir) ++ ".sha256")
      ≠ CiBuild.zip_path_of version target final_dir := by
  intro h
  simp only [CiBuild.zip_path_of] at h
  have h2 := os_path_join_inj_right final_dir _ _ h
  exact append_zip_ne_append_sha256 _ _ h2.symm

theorem hash_path_ne_tar_path (version target final_dir : String) :
    os_path_join final_dir
        (basename (CiBuild.tar_path_of version target final_dir) ++ ".sha256")
      ≠ CiBuild.tar_path_of version target final_dir := by
  intro h
  simp only [CiBuild.tar_path_of] at h
  have h2 := os_path_join_inj_right final_dir _ _ h
  exact append_targz_ne_append_sha256 _ _ h2.symm

theorem collectEntries_extras (fs : FS) (nr nl nc : FNode)
    (hr : fs.find "README.md" = some nr) (hl : fs.find "LICENSE" = some nl)
    (hc : fs.find "CHANGELOG.md" = some nc) :
    CiBuild.collectEntries fs CiBuild.EXTRA_FILES_TO_ZIP =
      ([("README.md", nr.bytes), ("LICENSE", nl.bytes), ("CHANGELOG.md", nc.bytes)], none) := by
  simp [CiBuild.collectEntries, CiBuild.EXTRA_FILES_TO_ZIP, hr, hl, hc]

theorem zip_files_success (binary version target final_dir : String) (fs : FS)
    (bnode nr nl nc : FNode)
    (hb : fs.find binary = some bnode)
    (hr : fs.find "README.md" = some nr)
    (hl : fs.find "LICENSE" = some nl)
    (hc : fs.find "CHANGELOG.md" = some nc)
    (hzb : CiBuild.zip_path_of version target final_dir ≠ binary)
    (hzr : CiBuild.zip_path_of version target final_dir ≠ "README.md")
    (hzl : CiBuild.zip_path_of version target final_dir ≠ "LICENSE")
    (hzc : CiBuild.zip_path_of version target final_dir ≠ "CHANGELOG.md") :
    CiBuild.zip_files binary version target final_dir fs =
      ⟨((fs.write (CiBuild.zip_path_of version target final_dir) (.zipA [] false)).write
            (CiBuild.zip_path_of version target final_dir)
            (.zipA [(basename binary, bnode.bytes), ("README.md", nr.bytes),
                    ("LICENSE", nl.bytes), ("CHANGELOG.md", nc.bytes)] true)).write
          (os_path_join final_dir
            (basename (CiBuild.zip_path_of version target final_dir) ++ ".sha256"))
          (.text (SHA256.sha256hex
              (FNode.zipA [(basename binary, bnode.bytes), ("README.md", nr.bytes),
                           ("LICENSE", nl.bytes), ("CHANGELOG.md", nc.bytes)] true).bytes
            ++ "  " ++ basename (CiBuild.zip_path_of version target final_dir))),
       none⟩ := by
  have h1 : (fs.write (CiBuild.zip_path_of version target final_dir)
      (.zipA [] false)).find binary = some bnode := by
    rw [FS.find_write_ne _ _ _ _ hzb]; exact hb
  have h2 : (fs.write (CiBuild.zip_path_of version target final_dir)
      (.zipA [] false)).find "README.md" = some nr := by
    rw [FS.find_write_ne _ _ _ _ hzr]; exact hr
  have h3 : (fs.write (CiBuild.zip_path_of version target final_dir)
      (.zipA [] false)).find "LICENSE" = some nl := by
    rw [FS.find_write_ne _ _ _ _ hzl]; exact hl
  have h4 : (fs.write (CiBuild.zip_path_of version target final_dir)
      (.zipA [] false)).find "CHANGELOG.md" = some nc := by
    rw [FS.find_write_ne _ _ _ _ hzc]; exact hc
  have hcol := collectEntries_extras _ nr nl nc h2 h3 h4
  have hch := create_hash_file_eq
    ((fs.write (CiBuild.zip_path_of version target final_dir) (.zipA [] false)).write
      (CiBuild.zip_path_of version target final_dir)
      (.zipA [(basename binary, bnode.bytes), ("README.md", nr.bytes),
              ("LICENSE", nl.bytes), ("CHANGELOG.md", nc.bytes)] true))
    (CiBuild.zip_path_of version target final_dir) final_dir
    (.zipA [(basename binary, bnode.bytes), ("README.md", nr.bytes),
            ("LICENSE", nl.bytes), ("CHANGELOG.md", nc.bytes)] true)
    (FS.find_write_self _ _ _)
  simp only [CiBuild.zip_path_of] at h1 hcol hch
  simp only [CiBuild.zip_files, CiBuild.zip_path_of, h1, hcol, hch]

theorem tar_files_success (binary version target final_dir : String) (fs : FS)
    (bnode nr nl nc : FNode)
    (hb : fs.find binary = some bnode)
    (hr : fs.find "README.md" = some nr)
    (hl : fs.find "LICENSE" = some nl)
    (hc : fs.find "CHANGELOG.md" = some nc)
    (hzb : CiBuild.tar_path_of version target final_dir ≠ binary)
    (hzr : CiBuild.tar_path_of version target final_dir ≠ "README.md")
    (hzl : CiBuild.tar_path_of version target final_dir ≠ "LICENSE")
    (hzc : CiBuild.tar_path_of version target final_dir ≠ "CHANGELOG.md") :
    CiBuild.tar_files binary version target final_dir fs =
      ⟨((fs.write (CiBuild.tar_path_of version target final_dir) (.tarA [] false)).write
            (CiBuild.tar_path_of version target final_dir)
            (.tarA [(basename binary, bnode.bytes), ("README.md", nr.bytes),
                    ("LICENSE", nl.bytes), ("CHANGELOG.md", nc.bytes)] true)).write
          (os_path_join final_dir
            (basename (CiBuild.tar_path_of version target final_dir) ++ ".sha256"))
          (.text (SHA256.sha256hex
              (FNode.tarA [(basename binary, bnode.bytes), ("README.md", nr.bytes),
                           ("LICENSE", nl.bytes), ("CHANGELOG.md", nc.bytes)] true).bytes
            ++ "  " ++ basename (CiBuild.tar_path_of version target final_dir))),
       none⟩ := by
  have h1 : (fs.write (CiBuild.tar_path_of version target final_dir)
      (.tarA [] false)).find binary = some bnode := by
    rw [FS.find_write_ne _ _ _ _ hzb]; exact hb
  have h2 : (fs.write (CiBuild.tar_path_of version target final_dir)
      (.tarA [] false)).find "README.md" = some nr := by
    rw [FS.find_write_ne _ _ _ _ hzr]; exact hr
  have h3 : (fs.write (CiBuild.tar_path_of version target final_dir)
      (.tarA [] false)).find "LICENSE" = some nl := by
    rw [FS.find_write_ne _ _ _ _ hzl]; exact hl
  have h4 : (fs.write (CiBuild.tar_path_of version target final_dir)
      (.tarA [] false)).find "CHANGELOG.md" = some nc := by
    rw [FS.find_write_ne _ _ _ _ hzc]; exact hc
  have hcol := collectEntries_extras _ nr nl nc h2 h3 h4
  have hch := create_hash_file_eq
    ((fs.write (CiBuild.tar_path_of version target final_dir) (.tarA [] false)).write
      (CiBuild.tar_path_of version target final_dir)
      (.tarA [(basename binary, bnode.bytes), ("README.md", nr.bytes),
              ("LICENSE", nl.bytes), ("CHANGELOG.md", nc.bytes)] true))
    (CiBuild.tar_path_of version target final_dir) final_dir
    (.tarA [(basename binary, bnode.bytes), ("README.md", nr.bytes),
            ("LICENSE", nl.bytes), ("CHANGELOG.md", nc.bytes)] true)
    (FS.find_write_self _ _ _)
  simp only [CiBuild.tar_path_of] at h1 hcol hch
  simp only [CiBuild.tar_files, CiBuild.tar_path_of, h1, hcol, hch]

/-- C4: for every binary path, version, triple and output directory with the
binary and all auxiliary files present, the archive builder produces an
archive named `<PKG_NAME>-<version>-<triple>.<ext>` (`.zip` for the zip
builder, `.tar.gz` for the tar builder) in the output directory whose entry
list is exactly the binary under its base filename followed by the fixed
auxiliary files under their own names — no more, no fewer. -/
theorem c4_archive_contains_exactly_binary_and_extras
    (binary version target final_dir : String) (fs : FS) (bnode nr nl nc : FNode)
    (hb : fs.find binary = some bnode)
    (hr : fs.find "README.md" = some nr)
    (hl : fs.find "LICENSE" = some nl)
    (hc : fs.find "CHANGELOG.md" = some nc)
    (hzb : CiBuild.zip_path_of version target final_dir ≠ binary)
    (hzr : CiBuild.zip_path_of version target final_dir ≠ "README.md")
    (hzl : CiBuild.zip_path_of version target final_dir ≠ "LICENSE")
    (hzc : CiBuild.zip_path_of version target final_dir ≠ "CHANGELOG.md")
    (htb : CiBuild.tar_path_of version target final_dir ≠ binary)
    (htr : CiBuild.tar_path_of version target final_dir ≠ "README.md")
    (htl : CiBuild.tar_path_of version target final_dir ≠ "LICENSE")
    (htc : CiBuild.tar_path_of version target final_dir ≠ "CHANGELOG.md") :
    ((CiBuild.zip_files binary version target final_dir fs).err = none ∧
     (CiBuild.zip_files binary version target final_dir fs).fs.find
         (CiBuild.zip_path_of version target final_dir)
       = some (.zipA [(basename binary, bnode.bytes), ("README.md", nr.bytes),
                      ("LICENSE", nl.bytes), ("CHANGELOG.md", nc.bytes)] true)) ∧
    ((CiBuild.tar_files binary version target final_dir fs).err = none ∧
     (CiBuild.tar_files binary version target final_dir fs).fs.find
         (CiBuild.tar_path_of version target final_dir)
       = some (.tarA [(basename binary, bnode.bytes), ("README.md", nr.bytes),
                      ("LICENSE", nl.bytes), ("CHANGELOG.md", nc.bytes)] true)) ∧
    ([(basename binary, bnode.bytes), ("README.md", nr.bytes),
      ("LICENSE", nl.bytes), ("CHANGELOG.md", nc.bytes)].map Prod.fst
       = basename binary :: CiBuild.EXTRA_FILES_TO_ZIP) := by
  have hz := zip_files_success binary version target final_dir fs bnode nr nl nc
    hb hr hl hc hzb hzr hzl hzc
  have ht := tar_files_success binary version target final_dir fs bnode nr nl nc
    hb hr hl hc htb htr htl htc
  refine ⟨⟨by rw [hz], ?_⟩, ⟨by rw [ht], ?_⟩, by simp [CiBuild.EXTRA_FILES_TO_ZIP]⟩
  · rw [hz]
    show (FS.write _ _ _).find _ = _
    rw [FS.find_write_ne _ _ _ _ (hash_path_ne_zip_path version target final_dir),
      FS.find_write_self]
  · rw [ht]
    show (FS.write _ _ _).find _ = _
    rw [FS.find_write_ne _ _ _ _ (hash_path_ne_tar_path version target final_dir),
      FS.find_write_self]

/-- Witness for C4 at a concrete file system holding the binary and the
three auxiliary files. -/
theorem c4_witness :
    (FS.mk [("bin/yamis", FNode.data [7]), ("README.md", FNode.data [1]),
            ("LICENSE", FNode.data [2]), ("CHANGELOG.md", FNode.data [3])]).find "bin/yamis"
        = some (FNode.data [7]) ∧
    CiBuild.zip_path_of "1.0" "tgt" "out" ≠ "bin/yamis" ∧
    CiBuild.tar_path_of "1.0" "tgt" "out" ≠ "bin/yamis" ∧
    (((CiBuild.zip_files "bin/yamis" "1.0" "tgt" "out"
          ⟨[("bin/yamis", FNode.data [7]), ("README.md", FNode.data [1]),
            ("LICENSE", FNode.data [2]), ("CHANGELOG.md", FNode.data [3])]⟩).err = none ∧
      (CiBuild.zip_files "bin/yamis" "1.0" "tgt" "out"
          ⟨[("bin/yamis", FNode.data [7]), ("README.md", FNode.data [1]),
            ("LICENSE", FNode.data [2]), ("CHANGELOG.md", FNode.data [3])]⟩).fs.find
          (CiBuild.zip_path_of "1.0" "tgt" "out")
        = some (.zipA [(basename "bin/yamis", (FNode.data [7]).bytes),
                       ("README.md", (FNode.data [1]).bytes),
                       ("LICENSE", (FNode.data [2]).bytes),
                       ("CHANGELOG.md", (FNode.data [3]).bytes)] true)) ∧
     ((CiBuild.tar_files "bin/yamis" "1.0" "tgt" "out"
          ⟨[("bin/yamis", FNode.data [7]), ("README.md", FNode.data [1]),
            ("LICENSE", FNode.data [2]), ("CHANGELOG.md", FNode.data [3])]⟩).err = none ∧
      (CiBuild.tar_files "bin/yamis" "1.0" "tgt" "out"
          ⟨[("bin/yamis", FNode.data [7]), ("README.md", FNode.data [1]),
            ("LICENSE", FNode.data [2]), ("CHANGELOG.md", FNode.data [3])]⟩).fs.find
          (CiBuild.tar_path_of "1.0" "tgt" "out")
        = some (.tarA [(basename "bin/yamis", (FNode.data [7]).bytes),
                       ("README.md", (FNode.data [1]).bytes),
                       ("LICENSE", (FNode.data [2]).bytes),
                       ("CHANGELOG.md", (FNode.data [3]).bytes)] true)) ∧
     ([(basename "bin/yamis", (FNode.data [7]).bytes), ("README.md", (FNode.data [1]).bytes),
       ("LICENSE", (FNode.data [2]).bytes), ("CHANGELOG.md", (FNode.data [3]).bytes)].map
         Prod.fst = basename "bin/yamis" :: CiBuild.EXTRA_FILES_TO_ZIP)) :=
  ⟨by decide, by decide, by decide,
   c4_archive_contains_exactly_binary_and_extras "bin/yamis" "1.0" "tgt" "out"
     ⟨[("bin/yamis", FNode.data [7]), ("README.md", FNode.data [1]),
       ("LICENSE", FNode.data [2]), ("CHANGELOG.md", FNode.data [3])]⟩
     (FNode.data [7]) (FNode.data [1]) (FNode.data [2]) (FNode.data [3])
     (by decide) (by decide) (by decide) (by decide)
     (by decide) (by decide) (by decide) (by decide)
     (by decide) (by decide) (by decide) (by decide)⟩

/-! ## Claim C1: missing binary in the release orchestrator -/

/-- Counterexample to C1 as stated: with no binary at the conventional path
the run does fail with the missing-artifact error, but an (incomplete,
empty) archive file has already been created at the conventional archive
path in the output directory, so "writes no archive file" is false. -/
theorem c1_counterexample :
    (CiBuild.ci_build_main 0 "t" "x86_64-pc-windows-gnu" "1.0" "out" ⟨[]⟩).err
        = some (.missingFile "t/x86_64-pc-windows-gnu/release/yamis.exe") ∧
    (CiBuild.ci_build_main 0 "t" "x86_64-pc-windows-gnu" "1.0" "out" ⟨[]⟩).fs.find
        "out/yamis-1.0-x86_64-pc-windows-gnu.zip" = some (.zipA [] false) :=
  ⟨by decide, by decide⟩

/-- C1 (amended): when no binary exists at the conventional path, the
orchestrator fails with the missing-artifact error naming that path and
writes no hash-record file; the archive file, however, has already been
created (empty and incomplete) at the conventional archive path — the
result is exactly the input file system plus that one file. -/
theorem c1_missing_binary_fails_without_hash_record
    (target_dir target version final_dir : String) (fs : FS)
    (hmiss : fs.find (CiBuild.binary_path_of target_dir target) = none)
    (hne : CiBuild.archive_path_of version target final_dir
      ≠ CiBuild.binary_path_of target_dir target) :
    CiBuild.ci_build_main 0 target_dir target version final_dir fs =
      ⟨fs.write (CiBuild.archive_path_of version target final_dir)
        (CiBuild.empty_archive_node target),
       some (.missingFile (CiBuild.binary_path_of target_dir target))⟩ := by
  cases hfmt : CiBuild.archiveFormatFor target with
  | targz =>
      have hne' : CiBuild.tar_path_of version target final_dir
          ≠ CiBuild.binary_path_of target_dir target := by
        simpa [CiBuild.archive_path_of, hfmt] using hne
      have h1 : (fs.write (CiBuild.tar_path_of version target final_dir)
          (.tarA [] false)).find (CiBuild.binary_path_of target_dir target) = none := by
        rw [FS.find_write_ne _ _ _ _ hne']; exact hmiss
      simp only [CiBuild.tar_path_of] at h1
      simp [CiBuild.ci_build_main, hfmt, CiBuild.archive_path_of,
        CiBuild.empty_archive_node, CiBuild.tar_files, CiBuild.tar_path_of, h1]
  | zip =>
      have hne' : CiBuild.zip_path_of version target final_dir
          ≠ CiBuild.binary_path_of target_dir target := by
        simpa [CiBuild.archive_path_of, hfmt] using hne
      have h1 : (fs.write (CiBuild.zip_path_of version target final_dir)
          (.zipA [] false)).find (CiBuild.binary_path_of target_dir target) = none := by
        rw [FS.find_write_ne _ _ _ _ hne']; exact hmiss
      simp only [CiBuild.zip_path_of] at h1
      simp [CiBuild.ci_build_main, hfmt, CiBuild.archive_path_of,
        CiBuild.empty_archive_node, CiBuild.zip_files, CiBuild.zip_path_of, h1]

/-- Witness for the amended C1 at a concrete empty file system. -/
theorem c1_witness :
    (FS.mk []).find (CiBuild.binary_path_of "t" "x86_64-pc-windows-gnu") = none ∧
    CiBuild.archive_path_of "1.0" "x86_64-pc-windows-gnu" "out"
      ≠ CiBuild.binary_path_of "t" "x86_64-pc-windows-gnu" ∧
    CiBuild.ci_build_main 0 "t" "x86_64-pc-windows-gnu" "1.0" "out" ⟨[]⟩ =
      ⟨(FS.mk []).write (CiBuild.archive_path_of "1.0" "x86_64-pc-windows-gnu" "out")
        (CiBuild.empty_archive_node "x86_64-pc-windows-gnu"),
       some (.missingFile (CiBuild.binary_path_of "t" "x86_64-pc-windows-gnu"))⟩ :=
  ⟨by decide, by decide,
   c1_missing_binary_fails_without_hash_record "t" "x86_64-pc-windows-gnu" "1.0" "out" ⟨[]⟩
     (by decide) (by decide)⟩

/-! ## Claim C2: archive-format selection -/

/-- Counterexample to C2 as stated: the code tests whether `"linux"` occurs
anywhere in the triple, not whether the triple's OS component is `"linux"`;
on the syntactically well-formed triple `"linuxarch-pc-windows-gnu"` the
code chooses tar+gzip although the OS component is `"windows"`. -/
theorem c2_counterexample :
    CiBuild.archiveFormatFor "linuxarch-pc-windows-gnu" = CiBuild.ArchiveFormat.targz ∧
    osComponent "linuxarch-pc-windows-gnu" = "windows" ∧
    ¬ (CiBuild.archiveFormatFor "linuxarch-pc-windows-gnu" = CiBuild.ArchiveFormat.targz
        ↔ osComponent "linuxarch-pc-windows-gnu" = "linux") := by
  decide

/-- C2 (amended): the archive format is tar+gzip exactly when the string
`"linux"` occurs in the triple (which agrees with the OS-component rule on
the three representative triples), and zip otherwise. -/
theorem c2_targz_iff_triple_contains_linux (triple : String) :
    (CiBuild.archiveFormatFor triple = CiBuild.ArchiveFormat.targz
      ↔ strContains triple "linux" = true) ∧
    CiBuild.archiveFormatFor "x86_64-unknown-linux-gnu" = CiBuild.ArchiveFormat.targz ∧
    CiBuild.archiveFormatFor "x86_64-pc-windows-gnu" = CiBuild.ArchiveFormat.zip ∧
    CiBuild.archiveFormatFor "x86_64-apple-darwin" = CiBuild.ArchiveFormat.zip := by
  refine ⟨?_, by decide, by decide, by decide⟩
  rcases Bool.eq_false_or_eq_true (strContains triple "linux") with h | h <;>
    simp [CiBuild.archiveFormatFor, h]

/-! ## Claim C3: discovery parsing -/

/-- Counterexample to C3 as stated: the code recognizes any line whose
trimmed form merely has `"Executable"` as a character prefix, while the
claim recognizes exactly the lines beginning with the whitespace-delimited
token `"Executable"`; on the line `"Executables a (c)"` the code extracts
`"c"` but the claimed rule extracts nothing. -/
theorem c3_counterexample :
    GenerateCov.binariesOf "Executables a (c)" = ["c"] ∧
    specDiscoverTestBinaries "Executables a (c)" = [] ∧
    GenerateCov.binariesOf "Executables a (c)"
      ≠ specDiscoverTestBinaries "Executables a (c)" := by
  decide

/-- C3 (amended): `binariesOf` recognizes exactly the lines whose trimmed
form has the character prefix `"Executable"` and extracts, in the order
encountered, the last single-space-separated piece of each such line with
surrounding parentheses stripped; in particular the documented example line
yields `"target/debug/deps/foo-abc123"`. -/
theorem c3_discovery_extracts_last_piece (captured : String) :
    GenerateCov.binariesOf captured = amendedDiscover captured ∧
    GenerateCov.binariesOf "Executable unittests (target/debug/deps/foo-abc123)"
      = ["target/debug/deps/foo-abc123"] := by
  refine ⟨?_, by decide⟩
  unfold GenerateCov.binariesOf amendedDiscover
  rw [List.filterMap_map]
  generalize strSplitOnChar '\n' captured = ls
  induction ls with
  | nil => simp [discoverLines]
  | cons l rest ih =>
      simp only [List.filterMap_cons, Function.comp_apply, discoverLines]
      cases h : strStartsWith (strTrim l) "Executable"
      · simp only [h, Bool.false_eq_true, ite_false]
        exact ih
      · simp only [h, ite_true]
        rw [ih]

/-! ## Claims C7 and C10: the coverage pipeline -/

theorem kcovLoop_trace_mem (env : GenerateCov.Env) (t : List GenerateCov.Cmd)
    (dirs : List String) (l : List (Nat × String)) (c : GenerateCov.Cmd) (hc : c ∈ t) :
    c ∈ (GenerateCov.kcovLoop env t dirs l).trace := by
  induction l generalizing t dirs with
  | nil =>
      by_cases h : env.mergeExit ≠ 0 <;>
        simp [GenerateCov.kcovLoop, h, GenerateCov.Result.trace, List.mem_append, hc]
  | cons p rest ih =>
      obtain ⟨i, b⟩ := p
      by_cases h : env.kcovExit i ≠ 0
      · simp [GenerateCov.kcovLoop, h, GenerateCov.Result.trace, List.mem_append, hc]
      · simp only [GenerateCov.kcovLoop, h, ite_false, if_neg h]
        exact ih _ _ (by simp [hc])

/-- C7: when the captured build output has no line that, after trimming,
starts with `"Executable"`, the coverage pipeline stops with the explicit
"no executables" message and exit code 1, having run only the reset and the
test build: no kcov coverage run and no merge is ever invoked. -/
theorem c7_no_executables_aborts_before_kcov (env : GenerateCov.Env)
    (hcargo : env.cargoExit = 0)
    (hnone : ∀ line ∈ strSplitOnChar '\n' (env.stdout ++ env.stderr),
      strStartsWith (strTrim line) "Executable" = false) :
    GenerateCov.generate_cov env =
      .abortedNoExecutables "No executables found, aborting..." 1
        [GenerateCov.Cmd.rmTestDir, GenerateCov.Cmd.cargoTestNoRun] ∧
    ∀ c ∈ (GenerateCov.generate_cov env).trace,
      (∀ out bin, c ≠ GenerateCov.Cmd.kcov out bin) ∧
      (∀ out ins, c ≠ GenerateCov.Cmd.kcovMerge out ins) := by
  have hb : GenerateCov.binariesOf (env.stdout ++ env.stderr) = [] := by
    unfold GenerateCov.binariesOf
    rw [List.filterMap_eq_nil_iff]
    intro a ha
    rw [List.mem_map] at ha
    obtain ⟨line, hline, rfl⟩ := ha
    simp [hnone line hline]
  have h1 : GenerateCov.generate_cov env =
      .abortedNoExecutables "No executables found, aborting..." 1
        [GenerateCov.Cmd.rmTestDir, GenerateCov.Cmd.cargoTestNoRun] := by
    simp [GenerateCov.generate_cov, hcargo, hb]
  refine ⟨h1, ?_⟩
  rw [h1]
  intro c hc
  simp only [GenerateCov.Result.trace, List.mem_cons, List.mem_singleton] at hc
  rcases hc with rfl | rfl | hc
  · exact ⟨(fun out bin h => by cases h), (fun out ins h => by cases h)⟩
  · exact ⟨(fun out bin h => by cases h), (fun out ins h => by cases h)⟩
  · cases hc

/-- Witness for C7 at a concrete environment whose captured output has no
marker line. -/
theorem c7_witness :
    (GenerateCov.Env.mk 1 0 "no markers here" "" (fun _ => 0) 0).cargoExit = 0 ∧
    (∀ line ∈ strSplitOnChar '\n'
        ((GenerateCov.Env.mk 1 0 "no markers here" "" (fun _ => 0) 0).stdout ++
         (GenerateCov.Env.mk 1 0 "no markers here" "" (fun _ => 0) 0).stderr),
      strStartsWith (strTrim line) "Executable" = false) ∧
    (GenerateCov.generate_cov (GenerateCov.Env.mk 1 0 "no markers here" "" (fun _ => 0) 0) =
        .abortedNoExecutables "No executables found, aborting..." 1
          [GenerateCov.Cmd.rmTestDir, GenerateCov.Cmd.cargoTestNoRun] ∧
      ∀ c ∈ (GenerateCov.generate_cov
          (GenerateCov.Env.mk 1 0 "no markers here" "" (fun _ => 0) 0)).trace,
        (∀ out bin, c ≠ GenerateCov.Cmd.kcov out bin) ∧
        (∀ out ins, c ≠ GenerateCov.Cmd.kcovMerge out ins)) :=
  ⟨rfl, by decide,
   c7_no_executables_aborts_before_kcov (GenerateCov.Env.mk 1 0 "no markers here" "" (fun _ => 0) 0)
     rfl (by decide)⟩

theorem kcovLoop_rm_irrelevant (env : GenerateCov.Env) (e : Nat)
    (t : List GenerateCov.Cmd) (dirs : List String) (l : List (Nat × String)) :
    GenerateCov.kcovLoop { env with rmExit := e } t dirs l =
      GenerateCov.kcovLoop env t dirs l := by
  induction l generalizing t dirs with
  | nil => rfl
  | cons p rest ih =>
      obtain ⟨i, b⟩ := p
      by_cases h : env.kcovExit i ≠ 0 <;> simp [GenerateCov.kcovLoop, h, ih]

/-- C10: the destructive reset `rm -R target_cov` is run without checking
its exit status — the pipeline's result is entirely independent of it and
the test build is always reached — while the subsequent external commands
are checked: a failing `cargo test --no-run` aborts the pipeline at once,
and a failing first kcov run aborts before any merge. -/
theorem c10_rm_reset_unchecked_later_commands_checked
    (env : GenerateCov.Env) (e : Nat) (b : String) (bs : List String) :
    (GenerateCov.generate_cov { env with rmExit := e } = GenerateCov.generate_cov env) ∧
    GenerateCov.Cmd.cargoTestNoRun ∈ (GenerateCov.generate_cov env).trace ∧
    (env.cargoExit ≠ 0 →
      GenerateCov.generate_cov env = .calledProcessError .cargoTestNoRun
        [GenerateCov.Cmd.rmTestDir, GenerateCov.Cmd.cargoTestNoRun]) ∧
    (env.cargoExit = 0 →
      GenerateCov.binariesOf (env.stdout ++ env.stderr) = b :: bs →
      env.kcovExit 0 ≠ 0 →
      GenerateCov.generate_cov env = .calledProcessError
        (.kcov (GenerateCov.COV_OUT_DIR ++ "_" ++ toString 0) b)
        [GenerateCov.Cmd.rmTestDir, GenerateCov.Cmd.cargoTestNoRun,
         GenerateCov.Cmd.kcov (GenerateCov.COV_OUT_DIR ++ "_" ++ toString 0) b]) := by
  refine ⟨?_, ?_, ?_, ?_⟩
  · by_cases h : env.cargoExit ≠ 0
    · simp [GenerateCov.generate_cov, h]
    · by_cases hb : (GenerateCov.binariesOf (env.stdout ++ env.stderr)).length = 0
      · simp [GenerateCov.generate_cov, h, hb]
      · simp [GenerateCov.generate_cov, h, hb, kcovLoop_rm_irrelevant]
  · by_cases h : env.cargoExit ≠ 0
    · simp [GenerateCov.generate_cov, h, GenerateCov.Result.trace]
    · simp only [GenerateCov.generate_cov, h, ite_false, if_neg h]
      by_cases hb : (GenerateCov.binariesOf (env.stdout ++ env.stderr)).length = 0
      · simp [hb, GenerateCov.Result.trace]
      · simp only [hb, ite_false, if_neg hb]
        exact kcovLoop_trace_mem env _ [] _ _ (by simp)
  · intro h
    simp [GenerateCov.generate_cov, h]
  · intro hcargo hbins hk
    simp [GenerateCov.generate_cov, hcargo, hbins, GenerateCov.kcovLoop, hk,
      GenerateCov.COV_OUT_DIR]

/-- Witness for C10 at two concrete environments: one whose test build
fails, one whose first kcov run fails; in both the reset's exit status is
irrelevant. -/
theorem c10_witness :
    (GenerateCov.generate_cov
        { GenerateCov.Env.mk 3 1 "" "" (fun _ => 0) 0 with rmExit := 7 }
      = GenerateCov.generate_cov (GenerateCov.Env.mk 3 1 "" "" (fun _ => 0) 0)) ∧
    ((GenerateCov.Env.mk 3 1 "" "" (fun _ => 0) 0).cargoExit ≠ 0 ∧
      GenerateCov.generate_cov (GenerateCov.Env.mk 3 1 "" "" (fun _ => 0) 0)
        = .calledProcessError .cargoTestNoRun
            [GenerateCov.Cmd.rmTestDir, GenerateCov.Cmd.cargoTestNoRun]) ∧
    ((GenerateCov.Env.mk 3 0 "Executable x (b)" "" (fun _ => 1) 0).cargoExit = 0 ∧
      GenerateCov.binariesOf
          ((GenerateCov.Env.mk 3 0 "Executable x (b)" "" (fun _ => 1) 0).stdout ++
           (GenerateCov.Env.mk 3 0 "Executable x (b)" "" (fun _ => 1) 0).stderr)
        = ["b"] ∧
      (GenerateCov.Env.mk 3 0 "Executable x (b)" "" (fun _ => 1) 0).kcovExit 0 ≠ 0 ∧
      GenerateCov.generate_cov (GenerateCov.Env.mk 3 0 "Executable x (b)" "" (fun _ => 1) 0)
        = .calledProcessError (.kcov (GenerateCov.COV_OUT_DIR ++ "_" ++ toString 0) "b")
            [GenerateCov.Cmd.rmTestDir, GenerateCov.Cmd.cargoTestNoRun,
             GenerateCov.Cmd.kcov (GenerateCov.COV_OUT_DIR ++ "_" ++ toString 0) "b"]) :=
  ⟨(c10_rm_reset_unchecked_later_commands_checked
      (GenerateCov.Env.mk 3 1 "" "" (fun _ => 0) 0) 7 "b" []).1,
   ⟨by decide,
    (c10_rm_reset_unchecked_later_commands_checked
      (GenerateCov.Env.mk 3 1 "" "" (fun _ => 0) 0) 7 "b" []).2.2.1 (by decide)⟩,
   ⟨rfl, by decide, by decide,
    (c10_rm_reset_unchecked_later_commands_checked
      (GenerateCov.Env.mk 3 0 "Executable x (b)" "" (fun _ => 1) 0) 7 "b" []).2.2.2
      rfl (by decide) (by decide)⟩⟩

/-! ## Claims C8 and C9: the multi-target packager -/

theorem collectEntries_extra_upper (fs : FS) (nr nl nc : FNode)
    (hr : fs.find "README.md" = some nr) (hl : fs.find "LICENSE" = some nl)
    (hc : fs.find "CHANGELOG.MD" = some nc) :
    CiBuild.collectEntries fs ZipReleases.EXTRA =
      ([("README.md", nr.bytes), ("LICENSE", nl.bytes), ("CHANGELOG.MD", nc.bytes)], none) := by
  simp [CiBuild.collectEntries, ZipReleases.EXTRA, hr, hl, hc]

theorem package_binary_success (version architecture binary : String) (fs : FS)
    (bnode nr nl nc : FNode)
    (hb : fs.find (ZipReleases.binary_path_of version architecture binary) = some bnode)
    (hr : fs.find "README.md" = some nr)
    (hl : fs.find "LICENSE" = some nl)
    (hc : fs.find "CHANGELOG.MD" = some nc)
    (hzb : ZipReleases.zip_path_of version architecture
      ≠ ZipReleases.binary_path_of version architecture binary)
    (hzr : ZipReleases.zip_path_of version architecture ≠ "README.md")
    (hzl : ZipReleases.zip_path_of version architecture ≠ "LICENSE")
    (hzc : ZipReleases.zip_path_of version architecture ≠ "CHANGELOG.MD") :
    ZipReleases.package_binary version architecture binary fs =
      ⟨(fs.write (ZipReleases.zip_path_of version architecture) (.zipA [] false)).write
          (ZipReleases.zip_path_of version architecture)
          (.zipA [(binary, bnode.bytes), ("README.md", nr.bytes),
                  ("LICENSE", nl.bytes), ("CHANGELOG.MD", nc.bytes)] true),
       none⟩ := by
  have h1 : (fs.write (ZipReleases.zip_path_of version architecture) (.zipA [] false)).find
      (ZipReleases.binary_path_of version architecture binary) = some bnode := by
    rw [FS.find_write_ne _ _ _ _ hzb]; exact hb
  have h2 : (fs.write (ZipReleases.zip_path_of version architecture) (.zipA [] false)).find
      "README.md" = some nr := by
    rw [FS.find_write_ne _ _ _ _ hzr]; exact hr
  have h3 : (fs.write (ZipReleases.zip_path_of version architecture) (.zipA [] false)).find
      "LICENSE" = some nl := by
    rw [FS.find_write_ne _ _ _ _ hzl]; exact hl
  have h4 : (fs.write (ZipReleases.zip_path_of version architecture) (.zipA [] false)).find
      "CHANGELOG.MD" = some nc := by
    rw [FS.find_write_ne _ _ _ _ hzc]; exact hc
  have hcol := collectEntries_extra_upper _ nr nl nc h2 h3 h4
  simp only [ZipReleases.zip_path_of, ZipReleases.binary_path_of] at h1 hcol
  simp only [ZipReleases.package_binary, ZipReleases.zip_path_of,
    ZipReleases.binary_path_of, h1, hcol]

theorem package_binary_failure (version architecture binary : String) (fs : FS)
    (hmiss : fs.find (ZipReleases.binary_path_of version architecture binary) = none)
    (hzb : ZipReleases.zip_path_of version architecture
      ≠ ZipReleases.binary_path_of version architecture binary) :
    ZipReleases.package_binary version architecture binary fs =
      ⟨fs.write (ZipReleases.zip_path_of version architecture) (.zipA [] false),
       some (.missingFile (ZipReleases.binary_path_of version architecture binary))⟩ := by
  have h1 : (fs.write (ZipReleases.zip_path_of version architecture) (.zipA [] false)).find
      (ZipReleases.binary_path_of version architecture binary) = none := by
    rw [FS.find_write_ne _ _ _ _ hzb]; exact hmiss
  simp only [ZipReleases.zip_path_of, ZipReleases.binary_path_of] at h1
  simp only [ZipReleases.package_binary, ZipReleases.zip_path_of,
    ZipReleases.binary_path_of, h1]

/-- C9: archives produced by the multi-target packager store their
auxiliary entries under the names `README.md`, `LICENSE` and
`CHANGELOG.MD`; the changelog entry name differs in letter case from the
`CHANGELOG.md` required and archived by the single-target release builder,
so on a case-sensitive filesystem the two pipelines require differently
named changelog files. -/
theorem c9_changelog_entry_name_differs_in_case
    (version architecture binary : String) (fs : FS) (bnode nr nl nc : FNode)
    (hb : fs.find (ZipReleases.binary_path_of version architecture binary) = some bnode)
    (hr : fs.find "README.md" = some nr)
    (hl : fs.find "LICENSE" = some nl)
    (hc : fs.find "CHANGELOG.MD" = some nc)
    (hzb : ZipReleases.zip_path_of version architecture
      ≠ ZipReleases.binary_path_of version architecture binary)
    (hzr : ZipReleases.zip_path_of version architecture ≠ "README.md")
    (hzl : ZipReleases.zip_path_of version architecture ≠ "LICENSE")
    (hzc : ZipReleases.zip_path_of version architecture ≠ "CHANGELOG.MD") :
    ((ZipReleases.package_binary version architecture binary fs).err = none ∧
     (ZipReleases.package_binary version architecture binary fs).fs.find
         (ZipReleases.zip_path_of version architecture)
       = some (.zipA [(binary, bnode.bytes), ("README.md", nr.bytes),
                      ("LICENSE", nl.bytes), ("CHANGELOG.MD", nc.bytes)] true)) ∧
    ("CHANGELOG.MD" ∈ ZipReleases.EXTRA ∧ "CHANGELOG.md" ∉ ZipReleases.EXTRA) ∧
    ("CHANGELOG.md" ∈ CiBuild.EXTRA_FILES_TO_ZIP ∧
     "CHANGELOG.MD" ∉ CiBuild.EXTRA_FILES_TO_ZIP) ∧
    ("CHANGELOG.MD" : String) ≠ "CHANGELOG.md" := by
  have hp := package_binary_success version architecture binary fs bnode nr nl nc
    hb hr hl hc hzb hzr hzl hzc
  refine ⟨⟨by rw [hp], ?_⟩, by decide, by decide, by decide⟩
  rw [hp]
  exact FS.find_write_self _ _ _

/-- Witness for C9 at a concrete staged file system. -/
theorem c9_witness :
    (FS.mk [("target_releases/v1.0/x86_64-apple-darwin/release/yamis", FNode.data [9]),
            ("README.md", FNode.data [1]), ("LICENSE", FNode.data [2]),
            ("CHANGELOG.MD", FNode.data [3])]).find
        (ZipReleases.binary_path_of "1.0" "x86_64-apple-darwin" "yamis")
      = some (FNode.data [9]) ∧
    (((ZipReleases.package_binary "1.0" "x86_64-apple-darwin" "yamis"
          ⟨[("target_releases/v1.0/x86_64-apple-darwin/release/yamis", FNode.data [9]),
            ("README.md", FNode.data [1]), ("LICENSE", FNode.data [2]),
            ("CHANGELOG.MD", FNode.data [3])]⟩).err = none ∧
      (ZipReleases.package_binary "1.0" "x86_64-apple-darwin" "yamis"
          ⟨[("target_releases/v1.0/x86_64-apple-darwin/release/yamis", FNode.data [9]),
            ("README.md", FNode.data [1]), ("LICENSE", FNode.data [2]),
            ("CHANGELOG.MD", FNode.data [3])]⟩).fs.find
          (ZipReleases.zip_path_of "1.0" "x86_64-apple-darwin")
        = some (.zipA [("yamis", (FNode.data [9]).bytes), ("README.md", (FNode.data [1]).bytes),
                       ("LICENSE", (FNode.data [2]).bytes),
                       ("CHANGELOG.MD", (FNode.data [3]).bytes)] true)) ∧
     ("CHANGELOG.MD" ∈ ZipReleases.EXTRA ∧ "CHANGELOG.md" ∉ ZipReleases.EXTRA) ∧
     ("CHANGELOG.md" ∈ CiBuild.EXTRA_FILES_TO_ZIP ∧
      "CHANGELOG.MD" ∉ CiBuild.EXTRA_FILES_TO_ZIP) ∧
     ("CHANGELOG.MD" : String) ≠ "CHANGELOG.md") :=
  ⟨by decide,
   c9_changelog_entry_name_differs_in_case "1.0" "x86_64-apple-darwin" "yamis"
     ⟨[("target_releases/v1.0/x86_64-apple-darwin/release/yamis", FNode.data [9]),
       ("README.md", FNode.data [1]), ("LICENSE", FNode.data [2]),
       ("CHANGELOG.MD", FNode.data [3])]⟩
     (FNode.data [9]) (FNode.data [1]) (FNode.data [2]) (FNode.data [3])
     (by decide) (by decide) (by decide) (by decide)
     (by decide) (by decide) (by decide) (by decide)⟩

theorem FS.find_write2_ne (fs : FS) (p q : String) (n1 n2 : FNode) (h : p ≠ q) :
    ((fs.write p n1).write p n2).find q = fs.find q := by
  rw [FS.find_write_ne _ _ _ _ h, FS.find_write_ne _ _ _ _ h]

/-- C8: the multi-target packager processes the static matrix in list
order; when the staged binary of target `k` is missing (targets before `k`
being packageable), the run fails with the `IOError` naming that missing
staged path, and no archive is created for any target after `k`. -/
theorem c8_missing_staged_binary_fails_fast (version : String) (fs : FS)
    (k : Nat) (hk : k < 3) (nr nl nc : FNode)
    (hr : fs.find "README.md" = some nr)
    (hl : fs.find "LICENSE" = some nl)
    (hc : fs.find "CHANGELOG.MD" = some nc)
    (hprev : ∀ j, j < k →
      fs.find (ZipReleases.binary_path_of version
        (ZipReleases.BINARIES.getD j ("", "")).1
        (ZipReleases.BINARIES.getD j ("", "")).2) ≠ none)
    (hmiss : fs.find (ZipReleases.binary_path_of version
      (ZipReleases.BINARIES.getD k ("", "")).1
      (ZipReleases.BINARIES.getD k ("", "")).2) = none)
    (hfresh : ∀ j, k < j → j < 3 →
      fs.find (ZipReleases.zip_path_of version
        (ZipReleases.BINARIES.getD j ("", "")).1) = none)
    (hzb : ∀ i j, i < 3 → j < 3 →
      ZipReleases.zip_path_of version (ZipReleases.BINARIES.getD i ("", "")).1
        ≠ ZipReleases.binary_path_of version
            (ZipReleases.BINARIES.getD j ("", "")).1
            (ZipReleases.BINARIES.getD j ("", "")).2)
    (hze : ∀ i, i < 3 → ∀ e ∈ ZipReleases.EXTRA,
      ZipReleases.zip_path_of version (ZipReleases.BINARIES.getD i ("", "")).1 ≠ e)
    (hzz : ∀ i j, i < 3 → j < 3 → i ≠ j →
      ZipReleases.zip_path_of version (ZipReleases.BINARIES.getD i ("", "")).1
        ≠ ZipReleases.zip_path_of version (ZipReleases.BINARIES.getD j ("", "")).1) :
    (ZipReleases.main version fs).err
        = some (.missingFile (ZipReleases.binary_path_of version
            (ZipReleases.BINARIES.getD k ("", "")).1
            (ZipReleases.BINARIES.getD k ("", "")).2)) ∧
    ∀ j, k < j → j < 3 →
      (ZipReleases.main version fs).fs.find
          (ZipReleases.zip_path_of version
            (ZipReleases.BINARIES.getD j ("", "")).1) = none := by
  simp only [ZipReleases.BINARIES] at hprev hmiss hfresh hzb hze hzz ⊢
  interval_cases k
  · -- target 0 missing
    simp only [List.getD_cons_zero] at hmiss
    have hf := package_binary_failure version "x86_64-apple-darwin" "yamis" fs hmiss
      (by simpa using hzb 0 0 (by omega) (by omega))
    constructor
    · simp [ZipReleases.main, ZipReleases.runTargets, ZipReleases.BINARIES, hf]
    · intro j h0j hj3
      interval_cases j
      · have hfr := hfresh 1 (by omega) (by omega)
        simp only [List.getD_cons_succ, List.getD_cons_zero] at hfr ⊢
        simp [ZipReleases.main, ZipReleases.runTargets, ZipReleases.BINARIES, hf]
        rw [FS.find_write_ne _ _ _ _
          (by simpa using hzz 0 1 (by omega) (by omega) (by omega))]
        exact hfr
      · have hfr := hfresh 2 (by omega) (by omega)
        simp only [List.getD_cons_succ, List.getD_cons_zero] at hfr ⊢
        simp [ZipReleases.main, ZipReleases.runTargets, ZipReleases.BINARIES, hf]
        rw [FS.find_write_ne _ _ _ _
          (by simpa using hzz 0 2 (by omega) (by omega) (by omega))]
        exact hfr
  · -- target 1 missing
    obtain ⟨n0, hn0⟩ := Option.ne_none_iff_exists'.mp (by simpa using hprev 0 (by omega))
    have hp0 := package_binary_success version "x86_64-apple-darwin" "yamis" fs n0 nr nl nc
      hn0 hr hl hc
      (by simpa using hzb 0 0 (by omega) (by omega))
      (by simpa using hze 0 (by omega) "README.md" (by simp [ZipReleases.EXTRA]))
      (by simpa using hze 0 (by omega) "LICENSE" (by simp [ZipReleases.EXTRA]))
      (by simpa using hze 0 (by omega) "CHANGELOG.MD" (by simp [ZipReleases.EXTRA]))
    simp only [List.getD_cons_succ, List.getD_cons_zero] at hmiss
    have hm1 : ((fs.write (ZipReleases.zip_path_of version "x86_64-apple-darwin")
        (.zipA [] false)).write (ZipReleases.zip_path_of version "x86_64-apple-darwin")
        (.zipA [("yamis", n0.bytes), ("README.md", nr.bytes),
                ("LICENSE", nl.bytes), ("CHANGELOG.MD", nc.bytes)] true)).find
        (ZipReleases.binary_path_of version "x86_64-pc-windows-gnu" "yamis.exe") = none := by
      rw [FS.find_write2_ne _ _ _ _ _
        (by simpa using hzb 0 1 (by omega) (by omega))]
      exact hmiss
    have hf := package_binary_failure version "x86_64-pc-windows-gnu" "yamis.exe" _ hm1
      (by simpa using hzb 1 1 (by omega) (by omega))
    constructor
    · simp [ZipReleases.main, ZipReleases.runTargets, ZipReleases.BINARIES, hp0, hf]
    · intro j h1j hj3
      interval_cases j
      have hfr := hfresh 2 (by omega) (by omega)
      simp only [List.getD_cons_succ, List.getD_cons_zero] at hfr ⊢
      simp [ZipReleases.main, ZipReleases.runTargets, ZipReleases.BINARIES, hp0, hf]
      rw [FS.find_write_ne _ _ _ _
        (by simpa using hzz 1 2 (by omega) (by omega) (by omega))]
      rw [FS.find_write2_ne _ _ _ _ _
        (by simpa using hzz 0 2 (by omega) (by omega) (by omega))]
      exact hfr
  · -- target 2 missing
    obtain ⟨n0, hn0⟩ := Option.ne_none_iff_exists'.mp (by simpa using hprev 0 (by omega))
    have hp0 := package_binary_success version "x86_64-apple-darwin" "yamis" fs n0 nr nl nc
      hn0 hr hl hc
      (by simpa using hzb 0 0 (by omega) (by omega))
      (by simpa using hze 0 (by omega) "README.md" (by simp [ZipReleases.EXTRA]))
      (by simpa using hze 0 (by omega) "LICENSE" (by simp [ZipReleases.EXTRA]))
      (by simpa using hze 0 (by omega) "CHANGELOG.MD" (by simp [ZipReleases.EXTRA]))
    obtain ⟨n1, hn1⟩ := Option.ne_none_iff_exists'.mp (by simpa using hprev 1 (by omega))
    have hn1' : ((fs.write (ZipReleases.zip_path_of version "x86_64-apple-darwin")
        (.zipA [] false)).write (ZipReleases.zip_path_of version "x86_64-apple-darwin")
        (.zipA [("yamis", n0.bytes), ("README.md", nr.bytes),
                ("LICENSE", nl.bytes), ("CHANGELOG.MD", nc.bytes)] true)).find
        (ZipReleases.binary_path_of version "x86_64-pc-windows-gnu" "yamis.exe") = some n1 := by
      rw [FS.find_write2_ne _ _ _ _ _
        (by simpa using hzb 0 1 (by omega) (by omega))]
      exact hn1
    have hr1 : ((fs.write (ZipReleases.zip_path_of version "x86_64-apple-darwin")
        (.zipA [] false)).write (ZipReleases.zip_path_of version "x86_64-apple-darwin")
        (.zipA [("yamis", n0.bytes), ("README.md", nr.bytes),
                ("LICENSE", nl.bytes), ("CHANGELOG.MD", nc.bytes)] true)).find
        "README.md" = some nr := by
      rw [FS.find_write2_ne _ _ _ _ _
        (by simpa using hze 0 (by omega) "README.md" (by simp [ZipReleases.EXTRA]))]
      exact hr
    have hl1 : ((fs.write (ZipReleases.zip_path_of version "x86_64-apple-darwin")
        (.zipA [] false)).write (ZipReleases.zip_path_of version "x86_64-apple-darwin")
        (.zipA [("yamis", n0.bytes), ("README.md", nr.bytes),
                ("LICENSE", nl.bytes), ("CHANGELOG.MD", nc.bytes)] true)).find
        "LICENSE" = some nl := by
      rw [FS.find_write2_ne _ _ _ _ _
        (by simpa using hze 0 (by omega) "LICENSE" (by simp [ZipReleases.EXTRA]))]
      exact hl
    have hc1 : ((fs.write (ZipReleases.zip_path_of version "x86_64-apple-darwin")
        (.zipA [] false)).write (ZipReleases.zip_path_of version "x86_64-apple-darwin")
        (.zipA [("yamis", n0.bytes), ("README.md", nr.bytes),
                ("LICENSE", nl.bytes), ("CHANGELOG.MD", nc.bytes)] true)).find
        "CHANGELOG.MD" = some nc := by
      rw [FS.find_write2_ne _ _ _ _ _
        (by simpa using hze 0 (by omega) "CHANGELOG.MD" (by simp [ZipReleases.EXTRA]))]
      exact hc
    have hp1 := package_binary_success version "x86_64-pc-windows-gnu" "yamis.exe" _ n1 nr nl nc
      hn1' hr1 hl1 hc1
      (by simpa using hzb 1 1 (by omega) (by omega))
      (by simpa using hze 1 (by omega) "README.md" (by simp [ZipReleases.EXTRA]))
      (by simpa using hze 1 (by omega) "LICENSE" (by simp [ZipReleases.EXTRA]))
      (by simpa using hze 1 (by omega) "CHANGELOG.MD" (by simp [ZipReleases.EXTRA]))
    simp only [List.getD_cons_succ, List.getD_cons_zero] at hmiss
    have hm2 : ((((fs.write (ZipReleases.zip_path_of version "x86_64-apple-darwin")
        (.zipA [] false)).write (ZipReleases.zip_path_of version "x86_64-apple-darwin")
        (.zipA [("yamis", n0.bytes), ("README.md", nr.bytes),
                ("LICENSE", nl.bytes), ("CHANGELOG.MD", nc.bytes)] true)).write
          (ZipReleases.zip_path_of version "x86_64-pc-windows-gnu")
          (.zipA [] false)).write
          (ZipReleases.zip_path_of version "x86_64-pc-windows-gnu")
          (.zipA [("yamis.exe", n1.bytes), ("README.md", nr.bytes),
                  ("LICENSE", nl.bytes), ("CHANGELOG.MD", nc.bytes)] true)).find
        (ZipReleases.binary_path_of version "x86_64-unknown-linux-gnu" "yamis") = none := by
      rw [FS.find_write2_ne _ _ _ _ _
        (by simpa using hzb 1 2 (by omega) (by omega))]
      rw [FS.find_write2_ne _ _ _ _ _
        (by simpa using hzb 0 2 (by omega) (by omega))]
      exact hmiss
    have hf := package_binary_failure version "x86_64-unknown-linux-gnu" "yamis" _ hm2
      (by simpa using hzb 2 2 (by omega) (by omega))
    constructor
    · simp [ZipReleases.main, ZipReleases.runTargets, ZipReleases.BINARIES, hp0, hp1, hf]
    · intro j h2j hj3
      omega

/-- Witness for C8: version 1.0, first target staged, second target's
binary missing. -/
theorem c8_witness :
    (1 : Nat) < 3 ∧
    (FS.mk [("target_releases/v1.0/x86_64-apple-darwin/release/yamis", FNode.data [1]),
            ("README.md", FNode.data [4]), ("LICENSE", FNode.data [5]),
            ("CHANGELOG.MD", FNode.data [6])]).find
        (ZipReleases.binary_path_of "1.0"
          (ZipReleases.BINARIES.getD 1 ("", "")).1
          (ZipReleases.BINARIES.getD 1 ("", "")).2) = none ∧
    ((ZipReleases.main "1.0"
        ⟨[("target_releases/v1.0/x86_64-apple-darwin/release/yamis", FNode.data [1]),
          ("README.md", FNode.data [4]), ("LICENSE", FNode.data [5]),
          ("CHANGELOG.MD", FNode.data [6])]⟩).err
        = some (.missingFile (ZipReleases.binary_path_of "1.0"
            (ZipReleases.BINARIES.getD 1 ("", "")).1
            (ZipReleases.BINARIES.getD 1 ("", "")).2)) ∧
      ∀ j, 1 < j → j < 3 →
        (ZipReleases.main "1.0"
            ⟨[("target_releases/v1.0/x86_64-apple-darwin/release/yamis", FNode.data [1]),
              ("README.md", FNode.data [4]), ("LICENSE", FNode.data [5]),
              ("CHANGELOG.MD", FNode.data [6])]⟩).fs.find
            (ZipReleases.zip_path_of "1.0"
              (ZipReleases.BINARIES.getD j ("", "")).1) = none) :=
  ⟨by omega, by decide,
   c8_missing_staged_binary_fails_fast "1.0"
     ⟨[("target_releases/v1.0/x86_64-apple-darwin/release/yamis", FNode.data [1]),
       ("README.md", FNode.data [4]), ("LICENSE", FNode.data [5]),
       ("CHANGELOG.MD", FNode.data [6])]⟩
     1 (by omega) (FNode.data [4]) (FNode.data [5]) (FNode.data [6])
     (by decide) (by decide) (by decide)
     (by decide) (by decide)
     (by intro j h1 h2; interval_cases j; decide)
     (by intro i j hi hj; interval_cases i <;> interval_cases j <;> decide)
     (by decide)
     (by intro i j hi hj hne; interval_cases i <;> interval_cases j <;>
       first
         | exact absurd rfl hne
         | decide)⟩
